import Mathlib

/-!
# FFTW3: run-time SSE detection (`simd/sse.c`) and Fortran-77 marshalling (`api/f77api.c`)

A shallow embedding of the two C files and the properties of them that the
specification states.

## Modelling conventions

* C `int` values are `Int`.  No arithmetic in the embedded functions can
  overflow for the inputs the theorems range over.
* The process state that `sse.c` reads and writes is an explicit record
  `Proc`: the two function-local statics of `RIGHT_CPU`, the process-wide
  `SIGILL` disposition (handler, flags and mask, as `sigaction` reports
  it), whether `SIGILL` is blocked in the signal mask of the calling thread,
  and a ghost trace of the externally visible steps.
* Everything the C code obtains from outside the two files (the `cpuid`
  instruction, whether the probed instruction faults, how `signal` behaves,
  whether the alignment assertion holds) is an oracle collected in `World`,
  one `World` per call.
* Steps that can end the process return a `Status` next to the state.
-/

namespace Fftw3

/-! ## `simd/sse.c` -/

/-- Values of the C type `void (*)(int)` as far as `sse.c` can tell them apart:
the three special values of `<signal.h>`, the file-private function
`sighandler`, and any other handler function (identified by a number). -/
inductive sighandler_t where
  | SIG_DFL
  | SIG_IGN
  | SIG_ERR
  | sighandler
  | other (f : Nat)
  deriving DecidableEq, Repr

/-- Ghost trace entries: the externally visible steps of `sse.c`. -/
inductive Event where
  /-- Entry `cpuid op`: one execution of the `cpuid` instruction with `eax = op`. -/
  | cpuid (op : Int)
  /-- One entry into `sse_works`. -/
  | sse_works
  /-- One execution of the probed instruction `xorps %xmm0, %xmm0`. -/
  | xorps
  /-- One call of `X(check_alignment_of_sse_mpmp)`. -/
  | check_alignment
  deriving DecidableEq, Repr

/-- Process state touched by `sse.c`.
`init` and `res` are the statics of `RIGHT_CPU` (line 88).  The process-wide
disposition of `SIGILL` is the triple `disp`, `sa_flags`, `sa_mask`: the
handler, the flags (a bit set) and the mask (a bit set of signal numbers)
that `sigaction` would report.  `blocked` says whether `SIGILL` is in the signal
mask of the calling thread; no other bit of that mask has an effect on the
code.  `trace` is ghost state. -/
structure Proc where
  init : Int
  res : Int
  disp : sighandler_t
  sa_flags : Nat
  sa_mask : Nat
  blocked : Bool
  trace : List Event
  deriving DecidableEq, Repr

/-- The process state at program start: the statics of `RIGHT_CPU` hold their
initialisers (`init = 0`, and `res` zero as every static without one),
nothing has been executed yet, `d` is the handler of the `SIGILL` disposition,
with no flags and an empty mask, and `SIGILL` is not blocked. -/
def Proc.start (d : sighandler_t) : Proc :=
  { init := 0, res := 0, disp := d, sa_flags := 0, sa_mask := 0, blocked := false,
    trace := [] }

/-- Answers of the environment during one call. -/
structure World where
  /-- Value left in `edx` by `cpuid`, as a function of the requested leaf. -/
  edx : Int → Int
  /-- Whether the platform honours requests to change the `SIGILL` disposition. -/
  catchable : Bool
  /-- Whether executing `xorps` raises `SIGILL` on this processor. -/
  faults : Bool
  /-- Whether `signal` has System V semantics: the disposition is reset to
  `SIG_DFL` when a handler is entered. -/
  resethand : Bool
  /-- Whether `SIGILL` is blocked while a handler installed by `signal` runs
  (BSD semantics, as in glibc; not so with System V semantics). -/
  blockself : Bool
  /-- Whether `setjmp` saves the signal mask and `longjmp` restores it (BSD libc;
  not so in glibc or with System V semantics). -/
  savemask : Bool
  /-- The `sa_flags` that `signal` writes into a disposition it installs
  (`SA_RESTART` in glibc, `SA_RESETHAND | SA_NODEFER` with System V
  semantics). -/
  sig_flags : Nat
  /-- The `sa_mask` that `signal` writes into a disposition it installs (the
  signal itself in glibc, empty with System V semantics). -/
  sig_mask : Nat
  /-- Whether the assertion inside `X(check_alignment_of_sse_mpmp)` holds. -/
  aligned : Bool

/-- How a step ends. -/
inductive Status where
  /-- The function returned the given `int`. -/
  | returned (v : Int)
  /-- The alignment assertion failed and aborted the process. -/
  | aborted
  /-- An instruction fault was raised while `d` was the handler of the `SIGILL`
  disposition and was not recovered by the handler of `sse.c`: the signal
  goes to `d`, or ends the process when `SIGILL` is blocked.  Control does not
  come back to the caller. -/
  | sigill (d : sighandler_t)
  deriving DecidableEq, Repr

/-- The `cpuid_edx` function, lines 31-57: executes `cpuid` and returns `edx`. -/
def cpuid_edx (w : World) (op : Int) (p : Proc) : Int × Proc :=
  (w.edx op, { p with trace := p.trace ++ [Event.cpuid op] })

/-- The library call `signal(SIGILL, h)` (ISO C 7.14.1.1): when the request can
be honoured the handler of the disposition becomes `h` and the previous
handler is returned, otherwise `SIG_ERR` is returned and nothing changes.
`SIG_ERR` itself is never a valid handler.  The call takes and returns a
handler only: flags and mask of the previous disposition are not reported,
and the new disposition gets the flags and the mask of the library
(`sig_flags`, `sig_mask`).  The signal mask of the thread is left alone. -/
def signal (w : World) (h : sighandler_t) (p : Proc) : sighandler_t × Proc :=
  if w.catchable = true ∧ h ≠ sighandler_t.SIG_ERR then
    (p.disp, { p with disp := h, sa_flags := w.sig_flags, sa_mask := w.sig_mask })
  else
    (sighandler_t.SIG_ERR, p)

/-- The function `sse_works`, lines 67-84.
`setjmp` returns 0 first; the probed instruction is then executed.  If it
faults while `SIGILL` is blocked in the thread, the process is ended.
Otherwise `SIGILL` goes to the current disposition.  The handler
`sighandler` is only ever installed through `signal`, so it is entered the
way the library arranges (`resethand`, `blockself`); it does
`longjmp(jb, 1)`, which brings back the signal mask of the time of `setjmp`
only where the library saves it (`savemask`), so `setjmp` returns 1 and the
first branch runs.  Any other disposition takes control away from the
function. -/
def sse_works (w : World) (p : Proc) : Status × Proc :=
  let p0 : Proc := { p with trace := p.trace ++ [Event.sse_works] }
  -- oldsig = signal(SIGILL, sighandler);
  let (oldsig, p1) := signal w sighandler_t.sighandler p0
  -- setjmp(jb) == 0: asm volatile (".byte 0x0f; .byte 0x57; .byte 0xc0");
  let p2 : Proc := { p1 with trace := p1.trace ++ [Event.xorps] }
  if w.faults = true then
    if p2.blocked = false ∧ p2.disp = sighandler_t.sighandler then
      -- sighandler is entered
      let p3 : Proc :=
        { p2 with
          disp := if w.resethand = true then sighandler_t.SIG_DFL else p2.disp,
          blocked := w.blockself }
      -- longjmp(jb, 1); setjmp(jb) == 1
      let p4 : Proc := if w.savemask = true then { p3 with blocked := p2.blocked } else p3
      -- signal(SIGILL, oldsig); return 0;
      let (_, p5) := signal w oldsig p4
      (Status.returned 0, p5)
    else
      (Status.sigill p2.disp, p2)
  else
    -- signal(SIGILL, oldsig); return 1;
    let (_, p3) := signal w oldsig p2
    (Status.returned 1, p3)

/-- Modelled from the spec: the function `X(check_alignment_of_sse_mpmp)` is only
declared in `sse.c` (line 89) and defined outside the sources at hand.
Following sections 4.3 and 7 of the spec it is the alignment self-check,
which returns when the check holds and aborts the process when it fails. -/
def check_alignment_of_sse_mpmp (w : World) (p : Proc) : Bool × Proc :=
  (w.aligned, { p with trace := p.trace ++ [Event.check_alignment] })

/-- The function `RIGHT_CPU`, lines 86-97.  The operator `&&` evaluates
`sse_works()` only when the left operand is non-zero and yields 0 or 1. -/
def RIGHT_CPU (w : World) (p : Proc) : Status × Proc :=
  if p.init = 0 then
    -- res = (cpuid_edx(1) & (1 << 25)) && sse_works();
    let (edx, p1) := cpuid_edx w 1 p
    let rhs : Status × Proc :=
      if Int.land edx (2 ^ 25) ≠ 0 then sse_works w p1 else (Status.returned 0, p1)
    match rhs with
    | (Status.returned v, p2) =>
      let p3 : Proc := { p2 with res := if v ≠ 0 then 1 else 0 }
      -- init = 1;
      let p4 : Proc := { p3 with init := 1 }
      -- X(check_alignment_of_sse_mpmp)();
      let (ok, p5) := check_alignment_of_sse_mpmp w p4
      if ok = true then (Status.returned p5.res, p5) else (Status.aborted, p5)
    | (st, p2) => (st, p2)
  else
    (Status.returned p.res, p)

/-- A sequence of calls of `RIGHT_CPU`, one `World` per call.  The sequence
stops at the first call that does not return.  The result lists how each call
that was made ended, with the final state. -/
def RIGHT_CPU_calls : List World → Proc → List Status × Proc
  | [], p => ([], p)
  | w :: ws, p =>
    match RIGHT_CPU w p with
    | (Status.returned v, q) =>
      let r := RIGHT_CPU_calls ws q
      (Status.returned v :: r.1, r.2)
    | (st, q) => ([st], q)

/-! ## `api/f77api.c`

C arrays are lists of cells.  Reading or writing outside a block, a failed
assertion and a request the allocator cannot satisfy are `Fault`s.  The
headers `ifftw.h` and `api.h` are not part of the sources at hand, so the
macro `FINITE_RNK` and the conversion from `int` to the enumeration type
`X(r2r_kind)` are parameters of the functions that use them. -/

/-- Ways in which a marshalling helper can fail to return. -/
inductive Fault where
  /-- A failed `A(...)` assertion. -/
  | assertion
  /-- An access outside the bounds of an array. -/
  | bounds
  /-- An allocation request with a negative element count. -/
  | alloc
  deriving DecidableEq, Repr

/-- The record type `X(iodim)` with the three fields the code assigns. -/
structure iodim where
  n : Int
  is : Int
  os : Int
  deriving DecidableEq, Repr, Inhabited

/-- Read of the cell `a[i]` for a C `int` index. -/
def load {α : Type} (a : List α) (i : Int) : Except Fault α :=
  if 0 ≤ i then
    match a[i.toNat]? with
    | some x => Except.ok x
    | none => Except.error Fault.bounds
  else Except.error Fault.bounds

/-- Write `a[i] = x` for a C `int` index. -/
def store {α : Type} (a : List α) (i : Int) (x : α) : Except Fault (List α) :=
  if 0 ≤ i ∧ i < a.length then Except.ok (a.set i.toNat x) else Except.error Fault.bounds

/-- Modelled from the spec: the macro `MALLOC` comes from `ifftw.h`, which is not
among the sources, and the spec leaves the generic allocator outside its
scope.  The call `MALLOC(sizeof(T) * cnt, PROBLEMS)` yields a fresh block of
`cnt` cells of type `T` whose contents are whatever was in memory, `junk i`
in cell `i`.  A negative count wraps around to a request no allocator
satisfies. -/
def MALLOC {α : Type} (junk : Nat → α) (cnt : Int) : Except Fault (List α) :=
  if 0 ≤ cnt then Except.ok ((List.range cnt.toNat).map junk) else Except.error Fault.alloc

/-- Modelled from the spec: the assertion macro `A(ex)` comes from `ifftw.h`, which
is not among the sources; as for the other internal checks the spec
describes, a failed assertion ends the call. -/
def A (ex : Bool) : Except Fault Unit :=
  if ex = true then Except.ok () else Except.error Fault.assertion

/-- The loop header `for (i = 0; i < rnk; ++i)` with a body that assigns neither `i`
nor `rnk`: the body runs for `i = 0, 1, ..., rnk - 1` in this order,
threading the state `σ`. -/
def for_i {σ : Type} (rnk : Int) (body : Int → σ → Except Fault σ) (s : σ) :
    Except Fault σ :=
  (List.range rnk.toNat).foldlM (fun st (i : Nat) => body (i : Int) st) s

/-- The function `reverse_n`, lines 34-43. -/
def reverse_n (FINITE_RNK : Int → Bool) (junk : Nat → Int) (rnk : Int) (n : List Int) :
    Except Fault (List Int) := do
  -- A(FINITE_RNK(rnk));
  A (FINITE_RNK rnk)
  -- nrev = (int *) MALLOC(sizeof(int) * rnk, PROBLEMS);
  let nrev ← MALLOC junk rnk
  -- for (i = 0; i < rnk; ++i) nrev[rnk - i - 1] = n[i];
  for_i rnk (fun i nrev => do
    let x ← load n i
    store nrev (rnk - i - 1) x) nrev

/-- The function `make_dims`, lines 47-60. -/
def make_dims (FINITE_RNK : Int → Bool) (junk : Nat → iodim) (rnk : Int)
    (n is os : List Int) : Except Fault (List iodim) := do
  -- A(FINITE_RNK(rnk));
  A (FINITE_RNK rnk)
  -- dims = (X(iodim) *) MALLOC(sizeof(X(iodim)) * rnk, PROBLEMS);
  let dims ← MALLOC junk rnk
  for_i rnk (fun i dims => do
    -- dims[i].n = n[i];
    let x ← load n i
    let d ← load dims i
    let dims ← store dims i { d with n := x }
    -- dims[i].is = is[i];
    let y ← load is i
    let d ← load dims i
    let dims ← store dims i { d with is := y }
    -- dims[i].os = os[i];
    let z ← load os i
    let d ← load dims i
    store dims i { d with os := z }) dims

/-- The function `ints2kinds`, lines 86-100.  The result `none` is the null
pointer.  `r2r_kind` is the cast `(X(r2r_kind))` from an integer code to the
enumeration value with that code. -/
def ints2kinds {K : Type} (FINITE_RNK : Int → Bool) (r2r_kind : Int → K) (junk : Nat → K)
    (rnk : Int) (ik : List Int) : Except Fault (Option (List K)) := do
  -- if (!FINITE_RNK(rnk) || rnk == 0) return 0;
  if FINITE_RNK rnk = false ∨ rnk = 0 then return none
  -- k = (X(r2r_kind) *) MALLOC(sizeof(X(r2r_kind)) * rnk, PROBLEMS);
  let k ← MALLOC junk rnk
  -- for (i = 0; i < rnk; ++i) k[i] = (X(r2r_kind)) ik[rnk - 1 - i];
  let k ← for_i rnk (fun i k => do
    let x ← load ik (rnk - 1 - i)
    store k i (r2r_kind x)) k
  return some k

/-! ## Auxiliary facts -/

theorem nat_and_two_pow_ne_zero (n k : Nat) : n &&& 2 ^ k ≠ 0 ↔ n.testBit k = true := by
  constructor
  · intro h
    by_contra hb
    apply h
    apply Nat.eq_of_testBit_eq
    intro i
    rw [Nat.testBit_and, Nat.testBit_two_pow, Nat.zero_testBit]
    by_cases hki : k = i
    · subst hki; simp [hb]
    · simp [hki]
  · intro hb h
    have := congrArg (fun m => m.testBit k) h
    simp [Nat.testBit_and, Nat.testBit_two_pow, hb] at this

theorem nat_ldiff_two_pow_ne_zero (n k : Nat) :
    Nat.ldiff (2 ^ k) n ≠ 0 ↔ n.testBit k = false := by
  constructor
  · intro h
    by_contra hb
    apply h
    apply Nat.eq_of_testBit_eq
    intro i
    rw [Nat.testBit_ldiff, Nat.testBit_two_pow, Nat.zero_testBit]
    by_cases hki : k = i
    · subst hki; simp at hb; simp [hb]
    · simp [hki]
  · intro hb h
    have := congrArg (fun m => m.testBit k) h
    simp [Nat.testBit_ldiff, Nat.testBit_two_pow, hb] at this

/-- The C test `x & (1 << k)` is non-zero exactly when bit `k` of `x` is set. -/
theorem int_land_two_pow_ne_zero (x : Int) (k : Nat) :
    Int.land x (2 ^ k) ≠ 0 ↔ x.testBit k = true := by
  have h2 : (2 : Int) ^ k = ((2 ^ k : Nat) : Int) := by push_cast; rfl
  rw [h2]
  cases x with
  | ofNat n =>
    show ((n &&& 2 ^ k : Nat) : Int) ≠ 0 ↔ n.testBit k = true
    rw [← nat_and_two_pow_ne_zero]
    exact Int.natCast_ne_zero
  | negSucc n =>
    show ((Nat.ldiff (2 ^ k) n : Nat) : Int) ≠ 0 ↔ (!n.testBit k) = true
    rw [Bool.not_eq_true', ← nat_ldiff_two_pow_ne_zero]
    exact Int.natCast_ne_zero

/-! ## `sse_works` -/

/-- Every run of `sse_works` returns 0, returns 1, or loses control to a fault. -/
theorem sse_works_status (w : World) (p : Proc) :
    (sse_works w p).1 = Status.returned 0 ∨ (sse_works w p).1 = Status.returned 1 ∨
      ∃ d, (sse_works w p).1 = Status.sigill d := by
  unfold sse_works signal
  by_cases hf : w.faults = true <;> by_cases hc : w.catchable = true <;>
    by_cases hd : p.disp = sighandler_t.sighandler <;>
    by_cases hb : p.blocked = true <;> simp [hf, hc, hd, hb]

/-- The function `sse_works` touches neither static of `RIGHT_CPU` and adds exactly its
entry and one execution of the probed instruction to the trace. -/
theorem sse_works_frame (w : World) (p : Proc) :
    (sse_works w p).2.init = p.init ∧ (sse_works w p).2.res = p.res ∧
      (sse_works w p).2.trace = p.trace ++ [Event.sse_works, Event.xorps] := by
  unfold sse_works signal
  by_cases hf : w.faults = true <;> by_cases hc : w.catchable = true <;>
    by_cases hd : p.disp = sighandler_t.sighandler <;>
    by_cases hr : w.resethand = true <;>
    by_cases he : p.disp = sighandler_t.SIG_ERR <;>
    by_cases hb : p.blocked = true <;>
    by_cases hs : w.savemask = true <;> simp [hf, hc, hd, hr, he, hb, hs]

/-- C4, as stated, fails.  A handler installed through `sigaction` with the flag
`SA_SIGINFO` (value 4) and an empty mask is in place, and `signal` is the one
of glibc, which installs `SA_RESTART` and a mask holding the signal itself.
Then `sse_works` returns 1 when the probed instruction completes and 0 when
it faults, and on both paths the disposition afterwards has the old handler
with the flags and the mask of `signal`: it is not the disposition of
before. -/
theorem sse_works_restores_disposition_counterexample :
    (sse_works
        { edx := fun _ => 0, catchable := true, faults := false,
          resethand := false, blockself := true, savemask := false,
          sig_flags := 268435456, sig_mask := 16, aligned := true }
        { init := 0, res := 0, disp := sighandler_t.other 7, sa_flags := 4, sa_mask := 0,
          blocked := false, trace := [] }
      = (Status.returned 1,
          { init := 0, res := 0, disp := sighandler_t.other 7, sa_flags := 268435456,
            sa_mask := 16, blocked := false,
            trace := [Event.sse_works, Event.xorps] })) ∧
    (sse_works
        { edx := fun _ => 0, catchable := true, faults := true,
          resethand := false, blockself := true, savemask := false,
          sig_flags := 268435456, sig_mask := 16, aligned := true }
        { init := 0, res := 0, disp := sighandler_t.other 7, sa_flags := 4, sa_mask := 0,
          blocked := false, trace := [] }
      = (Status.returned 0,
          { init := 0, res := 0, disp := sighandler_t.other 7, sa_flags := 268435456,
            sa_mask := 16, blocked := true,
            trace := [Event.sse_works, Event.xorps] })) ∧
    ((sighandler_t.other 7, (268435456 : Nat), (16 : Nat))
      ≠ (sighandler_t.other 7, (4 : Nat), (0 : Nat))) := by
  decide

/-- C4, amended (handler restoration).  Let `d` be the `SIGILL` disposition in
place when `sse_works` is entered, with any flags and mask, and with a
handler other than `SIG_ERR`, which is not a handler, and the file-private
`sighandler`, which is in place only while `sse_works` runs.  Whenever
`sse_works` returns, the handler of the disposition is the handler of `d`
again, while flags and mask are those `signal` installs when it honours the
requests, and those of `d` when it does not.  Both returning paths exist:
when the probed instruction completes the function returns 1; when it faults
under the installed recovery handler, with `SIGILL` not blocked on entry,
the function returns 0, and `SIGILL` is afterwards blocked where the library
blocks it in the handler and `longjmp` does not bring the mask back.  When
the instruction faults with `SIGILL` blocked on entry the function does not
return. -/
theorem sse_works_restores_handler (w : World) (p : Proc)
    (herr : p.disp ≠ sighandler_t.SIG_ERR) (hpriv : p.disp ≠ sighandler_t.sighandler) :
    (∀ v q, sse_works w p = (Status.returned v, q) →
      q.disp = p.disp ∧
      (w.catchable = true → q.sa_flags = w.sig_flags ∧ q.sa_mask = w.sig_mask) ∧
      (w.catchable = false → q.sa_flags = p.sa_flags ∧ q.sa_mask = p.sa_mask)) ∧
    (w.faults = false →
      ∃ q, sse_works w p = (Status.returned 1, q) ∧ q.disp = p.disp ∧
        q.blocked = p.blocked) ∧
    (w.faults = true → w.catchable = true → p.blocked = false →
      ∃ q, sse_works w p = (Status.returned 0, q) ∧ q.disp = p.disp ∧
        q.blocked = (w.blockself && !w.savemask)) ∧
    (w.faults = true → p.blocked = true → ∃ d, (sse_works w p).1 = Status.sigill d) := by
  refine ⟨?_, ?_, ?_, ?_⟩
  · intro v q
    unfold sse_works signal
    by_cases hf : w.faults = true <;> by_cases hc : w.catchable = true <;>
      by_cases hr : w.resethand = true <;> by_cases hb : p.blocked = true <;>
      by_cases hs : w.savemask = true <;>
      simp [hf, hc, hr, hb, hs, herr, hpriv] <;>
      (intro _ hq; subst hq; simp)
  · intro hf
    unfold sse_works signal
    by_cases hc : w.catchable = true <;> simp [hf, hc, herr]
  · intro hf hc hb
    unfold sse_works signal
    by_cases hr : w.resethand = true <;> by_cases hs : w.savemask = true <;>
      simp [hf, hc, hr, hb, hs, herr]
  · intro hf hb
    unfold sse_works signal
    by_cases hc : w.catchable = true <;> simp [hf, hc, hb]

/-- Witness for C4 amended: the handler installed with `SA_SIGINFO` is in place, the
instruction faults under glibc; next to it the run in which `SIGILL` is
blocked on entry. -/
theorem sse_works_restores_handler_witness :
    (∃ q,
      sse_works
          { edx := fun _ => 0, catchable := true, faults := true,
            resethand := false, blockself := true, savemask := false,
            sig_flags := 268435456, sig_mask := 16, aligned := true }
          { init := 0, res := 0, disp := sighandler_t.other 7, sa_flags := 4, sa_mask := 0,
            blocked := false, trace := [] }
        = (Status.returned 0, q) ∧
      q.disp = sighandler_t.other 7 ∧ q.blocked = true) ∧
    (∃ d,
      (sse_works
          { edx := fun _ => 0, catchable := true, faults := true,
            resethand := false, blockself := true, savemask := false,
            sig_flags := 268435456, sig_mask := 16, aligned := true }
          { init := 0, res := 0, disp := sighandler_t.other 7, sa_flags := 4, sa_mask := 0,
            blocked := true, trace := [] }).1 = Status.sigill d) :=
  ⟨(sse_works_restores_handler
      { edx := fun _ => 0, catchable := true, faults := true,
        resethand := false, blockself := true, savemask := false,
        sig_flags := 268435456, sig_mask := 16, aligned := true }
      { init := 0, res := 0, disp := sighandler_t.other 7, sa_flags := 4, sa_mask := 0,
        blocked := false, trace := [] } (by decide) (by decide)).2.2.1 rfl rfl rfl,
   (sse_works_restores_handler
      { edx := fun _ => 0, catchable := true, faults := true,
        resethand := false, blockself := true, savemask := false,
        sig_flags := 268435456, sig_mask := 16, aligned := true }
      { init := 0, res := 0, disp := sighandler_t.other 7, sa_flags := 4, sa_mask := 0,
        blocked := true, trace := [] } (by decide) (by decide)).2.2.2 rfl rfl⟩

/-- C5, as stated, fails: with `signal(SIGILL, sighandler)` failing (it returns
`SIG_ERR` and leaves the default disposition in place) and a processor on
which the probed instruction completes, `sse_works` executes the instruction
and returns 1. -/
theorem sse_works_install_failure_counterexample :
    (signal
        { edx := fun _ => 0, catchable := false, faults := false,
          resethand := false, blockself := true, savemask := false,
          sig_flags := 268435456, sig_mask := 16, aligned := true }
        sighandler_t.sighandler
        { init := 0, res := 0, disp := sighandler_t.SIG_DFL, sa_flags := 0, sa_mask := 0,
          blocked := false, trace := [Event.sse_works] }
      = (sighandler_t.SIG_ERR,
          { init := 0, res := 0, disp := sighandler_t.SIG_DFL, sa_flags := 0, sa_mask := 0,
            blocked := false, trace := [Event.sse_works] })) ∧
    (sse_works
        { edx := fun _ => 0, catchable := false, faults := false,
          resethand := false, blockself := true, savemask := false,
          sig_flags := 268435456, sig_mask := 16, aligned := true }
        (Proc.start sighandler_t.SIG_DFL)
      = (Status.returned 1,
          { init := 0, res := 0, disp := sighandler_t.SIG_DFL, sa_flags := 0, sa_mask := 0,
            blocked := false, trace := [Event.sse_works, Event.xorps] })) := by
  decide

/-- C5, amended.  `sse_works` does not look at the result of
`signal(SIGILL, sighandler)`.  Whenever that call fails (it returns `SIG_ERR`
and the disposition stays as it was), the probed instruction is still
executed, exactly once and unguarded: if it completes, `sse_works` returns 1
with the process state otherwise untouched; if it faults, no recovery
handler is there, `SIGILL` goes to the disposition that was already in place
(or ends the process, when `SIGILL` is blocked) and `sse_works` does not
return. -/
theorem sse_works_install_failure (w : World) (p : Proc)
    (hfail : signal w sighandler_t.sighandler { p with trace := p.trace ++ [Event.sse_works] }
      = (sighandler_t.SIG_ERR, { p with trace := p.trace ++ [Event.sse_works] }))
    (hpriv : p.disp ≠ sighandler_t.sighandler) :
    (sse_works w p).2 = { p with trace := p.trace ++ [Event.sse_works, Event.xorps] } ∧
    (w.faults = false → (sse_works w p).1 = Status.returned 1) ∧
    (w.faults = true → (sse_works w p).1 = Status.sigill p.disp) := by
  have hc : w.catchable = false := by
    by_contra hc
    simp only [Bool.not_eq_false] at hc
    simp [signal, hc] at hfail
    exact hpriv hfail.2.1.symm
  unfold sse_works signal
  by_cases hf : w.faults = true <;> simp [hf, hc, hpriv]

/-- Witness for C5 amended: installation fails, the default disposition is in place,
the instruction faults. -/
theorem sse_works_install_failure_witness :
    (sse_works
        { edx := fun _ => 0, catchable := false, faults := true,
          resethand := false, blockself := true, savemask := false,
          sig_flags := 268435456, sig_mask := 16, aligned := true }
        (Proc.start sighandler_t.SIG_DFL)).1
      = Status.sigill sighandler_t.SIG_DFL :=
  (sse_works_install_failure
    { edx := fun _ => 0, catchable := false, faults := true,
      resethand := false, blockself := true, savemask := false,
      sig_flags := 268435456, sig_mask := 16, aligned := true }
    (Proc.start sighandler_t.SIG_DFL) (by decide) (by decide)).2.2 rfl

/-! ## `RIGHT_CPU` -/

/-- A call with `init` already set only reads the cache. -/
theorem RIGHT_CPU_cached (w : World) (p : Proc) (h : p.init ≠ 0) :
    RIGHT_CPU w p = (Status.returned p.res, p) := by
  unfold RIGHT_CPU
  simp [h]

/-- First call, CPUID bit 25 clear: `sse_works` is not called. -/
theorem RIGHT_CPU_first_clear (w : World) (p : Proc) (h0 : p.init = 0)
    (hb : (w.edx 1).testBit 25 = false) :
    RIGHT_CPU w p =
      (if w.aligned = true then Status.returned 0 else Status.aborted,
        { p with init := 1, res := 0,
                 trace := p.trace ++ [Event.cpuid 1, Event.check_alignment] }) := by
  have hl : Int.land (w.edx 1) 33554432 = 0 := by
    by_contra hne
    have h2 : Int.land (w.edx 1) (2 ^ 25) ≠ 0 := by norm_num; exact hne
    rw [(int_land_two_pow_ne_zero (w.edx 1) 25).1 h2] at hb
    exact Bool.noConfusion hb
  obtain ⟨i, r, d, sf, sm, bl, t⟩ := p
  simp only at h0
  subst h0
  unfold RIGHT_CPU cpuid_edx check_alignment_of_sse_mpmp
  by_cases ha : w.aligned = true <;> simp [hl, ha]

/-- First call, CPUID bit 25 set, `sse_works` returns `v`. -/
theorem RIGHT_CPU_first_set_returned (w : World) (p q : Proc) (v : Int) (h0 : p.init = 0)
    (hb : (w.edx 1).testBit 25 = true)
    (hs : sse_works w (cpuid_edx w 1 p).2 = (Status.returned v, q)) :
    RIGHT_CPU w p =
      (if w.aligned = true then Status.returned (if v ≠ 0 then 1 else 0) else Status.aborted,
        { q with init := 1, res := if v ≠ 0 then 1 else 0,
                 trace := q.trace ++ [Event.check_alignment] }) := by
  have hl : Int.land (w.edx 1) 33554432 ≠ 0 := by
    have := (int_land_two_pow_ne_zero (w.edx 1) 25).2 hb
    norm_num at this
    exact this
  obtain ⟨i, r, d, sf, sm, bl, t⟩ := p
  simp only at h0
  subst h0
  simp only [cpuid_edx] at hs
  unfold RIGHT_CPU check_alignment_of_sse_mpmp
  by_cases ha : w.aligned = true <;> simp [hl, ha, cpuid_edx, hs]

/-- First call, CPUID bit 25 set, the probe loses control to a fault. -/
theorem RIGHT_CPU_first_set_sigill (w : World) (p q : Proc) (d : sighandler_t)
    (h0 : p.init = 0) (hb : (w.edx 1).testBit 25 = true)
    (hs : sse_works w (cpuid_edx w 1 p).2 = (Status.sigill d, q)) :
    RIGHT_CPU w p = (Status.sigill d, q) := by
  have hl : Int.land (w.edx 1) 33554432 ≠ 0 := by
    have := (int_land_two_pow_ne_zero (w.edx 1) 25).2 hb
    norm_num at this
    exact this
  obtain ⟨i, r, d0, sf, sm, bl, t⟩ := p
  simp only at h0
  subst h0
  simp only [cpuid_edx] at hs
  unfold RIGHT_CPU
  simp [hl, cpuid_edx, hs]

/-- The shapes a first call can take: how it ends, what it leaves in the statics
and what it adds to the trace. -/
theorem RIGHT_CPU_first_shape (w : World) (p : Proc) (h0 : p.init = 0) :
    ((w.edx 1).testBit 25 = false ∧
      (RIGHT_CPU w p).1 = (if w.aligned = true then Status.returned 0 else Status.aborted) ∧
      (RIGHT_CPU w p).2.init = 1 ∧ (RIGHT_CPU w p).2.res = 0 ∧
      (RIGHT_CPU w p).2.trace = p.trace ++ [Event.cpuid 1, Event.check_alignment]) ∨
    ((w.edx 1).testBit 25 = true ∧ ∃ v, (v = 0 ∨ v = 1) ∧
      (sse_works w (cpuid_edx w 1 p).2).1 = Status.returned v ∧
      (RIGHT_CPU w p).1 = (if w.aligned = true then Status.returned v else Status.aborted) ∧
      (RIGHT_CPU w p).2.init = 1 ∧ (RIGHT_CPU w p).2.res = v ∧
      (RIGHT_CPU w p).2.trace = p.trace ++
        [Event.cpuid 1, Event.sse_works, Event.xorps, Event.check_alignment]) ∨
    ((w.edx 1).testBit 25 = true ∧ ∃ d,
      (sse_works w (cpuid_edx w 1 p).2).1 = Status.sigill d ∧
      (RIGHT_CPU w p).1 = Status.sigill d ∧
      (RIGHT_CPU w p).2.init = 0 ∧ (RIGHT_CPU w p).2.res = p.res ∧
      (RIGHT_CPU w p).2.trace = p.trace ++ [Event.cpuid 1, Event.sse_works, Event.xorps]) := by
  by_cases hb : (w.edx 1).testBit 25 = true
  swap
  · left
    simp only [Bool.not_eq_true] at hb
    rw [RIGHT_CPU_first_clear w p h0 hb]
    exact ⟨hb, rfl, rfl, rfl, rfl⟩
  · right
    obtain ⟨hi, hr, ht⟩ := sse_works_frame w (cpuid_edx w 1 p).2
    have ht2 : (sse_works w (cpuid_edx w 1 p).2).2.trace
        = p.trace ++ [Event.cpuid 1, Event.sse_works, Event.xorps] := by
      rw [ht]; simp [cpuid_edx]
    have hpair : sse_works w (cpuid_edx w 1 p).2
        = ((sse_works w (cpuid_edx w 1 p).2).1, (sse_works w (cpuid_edx w 1 p).2).2) := rfl
    rcases sse_works_status w (cpuid_edx w 1 p).2 with h | h | ⟨d, h⟩
    · left
      refine ⟨hb, 0, Or.inl rfl, h, ?_⟩
      rw [h] at hpair
      rw [RIGHT_CPU_first_set_returned w p _ 0 h0 hb hpair]
      simp [ht2]
    · left
      refine ⟨hb, 1, Or.inr rfl, h, ?_⟩
      rw [h] at hpair
      rw [RIGHT_CPU_first_set_returned w p _ 1 h0 hb hpair]
      simp [ht2]
    · right
      refine ⟨hb, d, h, ?_⟩
      rw [h] at hpair
      rw [RIGHT_CPU_first_set_sigill w p _ d h0 hb hpair]
      refine ⟨rfl, ?_, ?_, ht2⟩
      · rw [hi]; simpa [cpuid_edx] using h0
      · rw [hr]; simp [cpuid_edx]

/-- Whenever a call returns, the value returned is the one in the cache and the
cache is marked as filled. -/
theorem RIGHT_CPU_returned_state (w : World) (p q : Proc) (v : Int)
    (h : RIGHT_CPU w p = (Status.returned v, q)) : q.init ≠ 0 ∧ q.res = v := by
  have h1 : (RIGHT_CPU w p).1 = Status.returned v := by rw [h]
  have h2 : (RIGHT_CPU w p).2 = q := by rw [h]
  by_cases h0 : p.init = 0
  · rcases RIGHT_CPU_first_shape w p h0 with
      ⟨-, e, ei, er, -⟩ | ⟨-, s, -, -, e, ei, er, -⟩ | ⟨-, d, -, e, -⟩
    · rw [h2] at ei er
      rw [e] at h1
      by_cases ha : w.aligned = true
      · simp [ha] at h1
        exact ⟨by rw [ei]; decide, er.trans h1⟩
      · simp [ha] at h1
    · rw [h2] at ei er
      rw [e] at h1
      by_cases ha : w.aligned = true
      · simp [ha] at h1
        exact ⟨by rw [ei]; decide, er.trans h1⟩
      · simp [ha] at h1
    · rw [e] at h1
      simp at h1
  · rw [RIGHT_CPU_cached w p h0] at h
    simp at h
    obtain ⟨hv, hq⟩ := h
    subst hq
    exact ⟨h0, hv⟩

/-- Calls made once the cache is filled all return the cached value and leave the
whole process state, trace included, as it was. -/
theorem RIGHT_CPU_calls_cached (ws : List World) (p : Proc) (h : p.init ≠ 0) :
    RIGHT_CPU_calls ws p = (List.replicate ws.length (Status.returned p.res), p) := by
  induction ws with
  | nil => rfl
  | cons w ws ih =>
    simp only [RIGHT_CPU_calls, RIGHT_CPU_cached w p h, ih, List.length_cons,
      List.replicate_succ]

/-- C1 (idempotence).  From any process state `(init, res)` and for any sequence
of two or more calls of `RIGHT_CPU`, each with its own answers of the CPUID
query, the probe and the alignment check: if all calls return, then all of
them return one value, the value of the first call. -/
theorem RIGHT_CPU_idempotent (ws : List World) (p : Proc) (hlen : 2 ≤ ws.length)
    (hall : ∀ st ∈ (RIGHT_CPU_calls ws p).1, ∃ v, st = Status.returned v) :
    ∃ v, (RIGHT_CPU_calls ws p).1.head? = some (Status.returned v) ∧
      (RIGHT_CPU_calls ws p).1 = List.replicate ws.length (Status.returned v) := by
  cases ws with
  | nil => simp at hlen
  | cons w ws =>
    rcases hq : RIGHT_CPU w p with ⟨st, q⟩
    cases st with
    | returned v =>
      obtain ⟨hi, hr⟩ := RIGHT_CPU_returned_state w p q v hq
      refine ⟨v, ?_, ?_⟩
      · simp [RIGHT_CPU_calls, hq]
      · simp only [RIGHT_CPU_calls, hq, RIGHT_CPU_calls_cached ws q hi, hr,
          List.length_cons, List.replicate_succ]
    | aborted =>
      have := hall Status.aborted (by simp [RIGHT_CPU_calls, hq])
      simp at this
    | sigill d =>
      have := hall (Status.sigill d) (by simp [RIGHT_CPU_calls, hq])
      simp at this

/-- Witness for C1: three calls from the start state on a machine with working SSE;
the later calls are given contradicting answers and still return 1. -/
theorem RIGHT_CPU_idempotent_witness :
    ∃ v,
      (RIGHT_CPU_calls
        [{ edx := fun _ => 2 ^ 25, catchable := true, faults := false,
           resethand := false, blockself := true, savemask := false,
           sig_flags := 268435456, sig_mask := 16, aligned := true },
         { edx := fun _ => 0, catchable := false, faults := true,
           resethand := true, blockself := false, savemask := false,
           sig_flags := 3221225472, sig_mask := 0, aligned := false },
         { edx := fun _ => 0, catchable := true, faults := true,
           resethand := false, blockself := true, savemask := false,
           sig_flags := 268435456, sig_mask := 16, aligned := false }]
        (Proc.start sighandler_t.SIG_DFL)).1.head? = some (Status.returned v) ∧
      (RIGHT_CPU_calls
        [{ edx := fun _ => 2 ^ 25, catchable := true, faults := false,
           resethand := false, blockself := true, savemask := false,
           sig_flags := 268435456, sig_mask := 16, aligned := true },
         { edx := fun _ => 0, catchable := false, faults := true,
           resethand := true, blockself := false, savemask := false,
           sig_flags := 3221225472, sig_mask := 0, aligned := false },
         { edx := fun _ => 0, catchable := true, faults := true,
           resethand := false, blockself := true, savemask := false,
           sig_flags := 268435456, sig_mask := 16, aligned := false }]
        (Proc.start sighandler_t.SIG_DFL)).1 = List.replicate 3 (Status.returned v) :=
  RIGHT_CPU_idempotent
        [{ edx := fun _ => 2 ^ 25, catchable := true, faults := false,
           resethand := false, blockself := true, savemask := false,
           sig_flags := 268435456, sig_mask := 16, aligned := true },
         { edx := fun _ => 0, catchable := false, faults := true,
           resethand := true, blockself := false, savemask := false,
           sig_flags := 3221225472, sig_mask := 0, aligned := false },
         { edx := fun _ => 0, catchable := true, faults := true,
           resethand := false, blockself := true, savemask := false,
           sig_flags := 268435456, sig_mask := 16, aligned := false }]
    (Proc.start sighandler_t.SIG_DFL) (by decide)
    (by
      intro st hst
      have h : (RIGHT_CPU_calls
        [{ edx := fun _ => 2 ^ 25, catchable := true, faults := false,
           resethand := false, blockself := true, savemask := false,
           sig_flags := 268435456, sig_mask := 16, aligned := true },
         { edx := fun _ => 0, catchable := false, faults := true,
           resethand := true, blockself := false, savemask := false,
           sig_flags := 3221225472, sig_mask := 0, aligned := false },
         { edx := fun _ => 0, catchable := true, faults := true,
           resethand := false, blockself := true, savemask := false,
           sig_flags := 268435456, sig_mask := 16, aligned := false }]
        (Proc.start sighandler_t.SIG_DFL)).1
          = [Status.returned 1, Status.returned 1, Status.returned 1] := by decide
      rw [h] at hst
      simp at hst
      exact ⟨1, hst⟩)

/-- C2 (two-of-two gating).  On a first call (`init = 0`), provided `sse_works`
returns when it is called, the value cached in `res` is 1 exactly when bit 25
of `cpuid_edx(1)` is set and `sse_works()` returns 1, and is 0 otherwise;
the call returns that cached value when the alignment check passes.  In
particular, with bit 25 set and `sse_works()` returning 0 the cached value
is 0. -/
theorem RIGHT_CPU_two_of_two (w : World) (p : Proc) (h0 : p.init = 0)
    (hret : (w.edx 1).testBit 25 = true →
      ∃ s, (sse_works w (cpuid_edx w 1 p).2).1 = Status.returned s) :
    (RIGHT_CPU w p).2.init = 1 ∧
    ((RIGHT_CPU w p).2.res = 1 ↔
      ((w.edx 1).testBit 25 = true ∧
        (sse_works w (cpuid_edx w 1 p).2).1 = Status.returned 1)) ∧
    ((RIGHT_CPU w p).2.res = 0 ↔
      ¬ ((w.edx 1).testBit 25 = true ∧
        (sse_works w (cpuid_edx w 1 p).2).1 = Status.returned 1)) ∧
    (w.aligned = true → (RIGHT_CPU w p).1 = Status.returned (RIGHT_CPU w p).2.res) ∧
    ((w.edx 1).testBit 25 = true →
      (sse_works w (cpuid_edx w 1 p).2).1 = Status.returned 0 →
      (RIGHT_CPU w p).2.res = 0) := by
  rcases RIGHT_CPU_first_shape w p h0 with
    ⟨hb, e, ei, er, -⟩ | ⟨hb, s, hs, hsw, e, ei, er, -⟩ | ⟨hb, d, hsw, -⟩
  · refine ⟨ei, ?_, ?_, ?_, ?_⟩
    · simp [er, hb]
    · simp [er, hb]
    · intro ha; rw [e, er]; simp [ha]
    · intro _ _; exact er
  · refine ⟨ei, ?_, ?_, ?_, ?_⟩
    · rw [er, hsw]
      rcases hs with rfl | rfl <;> simp [hb]
    · rw [er, hsw]
      rcases hs with rfl | rfl <;> simp [hb]
    · intro ha; rw [e, er]; simp [ha]
    · intro _ h; rw [hsw] at h
      rw [er]
      exact Status.returned.inj h
  · obtain ⟨s, hs⟩ := hret hb
    rw [hsw] at hs
    exact Status.noConfusion hs

/-- Witness for C2: CPUID reports SSE, the probed instruction faults under the
recovery handler, the alignment check passes: the call caches 0. -/
theorem RIGHT_CPU_two_of_two_witness :
    (RIGHT_CPU
        { edx := fun _ => 2 ^ 25, catchable := true, faults := true,
          resethand := false, blockself := true, savemask := false,
          sig_flags := 268435456, sig_mask := 16, aligned := true }
        (Proc.start sighandler_t.SIG_DFL)).2.res = 0 :=
  (RIGHT_CPU_two_of_two
    { edx := fun _ => 2 ^ 25, catchable := true, faults := true,
      resethand := false, blockself := true, savemask := false,
      sig_flags := 268435456, sig_mask := 16, aligned := true }
    (Proc.start sighandler_t.SIG_DFL) rfl (fun _ => ⟨0, by decide⟩)).2.2.2.2
      (by decide) (by decide)

/-- C3, as stated, fails: on hardware that lacks the feature (CPUID bit 25 clear,
and the probed instruction would fault) with an alignment check that fails,
the first call of `RIGHT_CPU` from the start state aborts the process
instead of returning 0. -/
theorem RIGHT_CPU_lacking_counterexample :
    (World.edx
        { edx := fun _ => 0, catchable := true, faults := true,
          resethand := false, blockself := true, savemask := false,
          sig_flags := 268435456, sig_mask := 16, aligned := false } 1).testBit 25 = false ∧
    (RIGHT_CPU
        { edx := fun _ => 0, catchable := true, faults := true,
          resethand := false, blockself := true, savemask := false,
          sig_flags := 268435456, sig_mask := 16, aligned := false }
        (Proc.start sighandler_t.SIG_DFL)).1 = Status.aborted := by
  decide

/-- C3, amended.  On a first call with the feature lacking (CPUID bit 25 clear, or
the probe faults and `sse_works` returns 0), `RIGHT_CPU` caches 0 and then
runs the alignment self-check, which the code calls whatever the verdict
was: the call returns 0, without terminating the process, exactly when the
self-check passes, and the process is aborted when the self-check fails. -/
theorem RIGHT_CPU_lacking (w : World) (p : Proc) (h0 : p.init = 0)
    (hlack : (w.edx 1).testBit 25 = false ∨
      (sse_works w (cpuid_edx w 1 p).2).1 = Status.returned 0) :
    (RIGHT_CPU w p).2.init = 1 ∧ (RIGHT_CPU w p).2.res = 0 ∧
    Event.check_alignment ∈ (RIGHT_CPU w p).2.trace ∧
    (w.aligned = true → (RIGHT_CPU w p).1 = Status.returned 0) ∧
    (w.aligned = false → (RIGHT_CPU w p).1 = Status.aborted) := by
  rcases RIGHT_CPU_first_shape w p h0 with
    ⟨hb, e, ei, er, et⟩ | ⟨hb, s, hs, hsw, e, ei, er, et⟩ | ⟨hb, d, hsw, -⟩
  · refine ⟨ei, er, ?_, ?_, ?_⟩
    · rw [et]; simp
    · intro ha; rw [e]; simp [ha]
    · intro ha; rw [e]; simp [ha]
  · have hs0 : s = 0 := by
      rcases hlack with h | h
      · rw [hb] at h; exact Bool.noConfusion h
      · rw [hsw] at h; exact Status.returned.inj h
    subst hs0
    refine ⟨ei, er, ?_, ?_, ?_⟩
    · rw [et]; simp
    · intro ha; rw [e]; simp [ha]
    · intro ha; rw [e]; simp [ha]
  · rcases hlack with h | h
    · rw [hb] at h; exact Bool.noConfusion h
    · rw [hsw] at h; exact Status.noConfusion h

/-- Witness for C3 amended: CPUID over-reports SSE, the probe faults under the
recovery handler, the alignment check passes: the first call returns 0. -/
theorem RIGHT_CPU_lacking_witness :
    (RIGHT_CPU
        { edx := fun _ => 2 ^ 25, catchable := true, faults := true,
          resethand := false, blockself := true, savemask := false,
          sig_flags := 268435456, sig_mask := 16, aligned := true }
        (Proc.start sighandler_t.SIG_DFL)).1 = Status.returned 0 :=
  (RIGHT_CPU_lacking
    { edx := fun _ => 2 ^ 25, catchable := true, faults := true,
      resethand := false, blockself := true, savemask := false,
      sig_flags := 268435456, sig_mask := 16, aligned := true }
    (Proc.start sighandler_t.SIG_DFL) rfl (Or.inr (by decide))).2.2.2.1 rfl

/-- C10 (compute once).  Over any sequence of calls that starts with `init = 0`:
no step (the CPUID query, the entry into `sse_works`, the probed instruction,
the alignment check) is executed more than once; the process state after the
whole sequence, trace included, is the state the first call left; and if the
first call returns `v` with state `q`, then `q.res = v`, any further call
returns `v` and leaves `q` untouched, and so does every later call of the
sequence. -/
theorem RIGHT_CPU_compute_once (w : World) (ws : List World) (p : Proc) (h0 : p.init = 0) :
    (∀ e : Event, (RIGHT_CPU_calls (w :: ws) p).2.trace.count e ≤ p.trace.count e + 1) ∧
    (RIGHT_CPU_calls (w :: ws) p).2 = (RIGHT_CPU w p).2 ∧
    (∀ v q, RIGHT_CPU w p = (Status.returned v, q) →
      q.res = v ∧ (∀ w1, RIGHT_CPU w1 q = (Status.returned v, q)) ∧
      RIGHT_CPU_calls ws q = (List.replicate ws.length (Status.returned v), q)) := by
  have hlater : ∀ v q, RIGHT_CPU w p = (Status.returned v, q) →
      q.res = v ∧ (∀ w1, RIGHT_CPU w1 q = (Status.returned v, q)) ∧
      RIGHT_CPU_calls ws q = (List.replicate ws.length (Status.returned v), q) := by
    intro v q hq
    obtain ⟨hi, hr⟩ := RIGHT_CPU_returned_state w p q v hq
    refine ⟨hr, ?_, ?_⟩
    · intro w1; rw [RIGHT_CPU_cached w1 q hi, hr]
    · rw [RIGHT_CPU_calls_cached ws q hi, hr]
  have hstate : (RIGHT_CPU_calls (w :: ws) p).2 = (RIGHT_CPU w p).2 := by
    rcases hq : RIGHT_CPU w p with ⟨st, q⟩
    cases st with
    | returned v =>
      simp only [RIGHT_CPU_calls, hq, (hlater v q hq).2.2]
    | aborted => simp only [RIGHT_CPU_calls, hq]
    | sigill d => simp only [RIGHT_CPU_calls, hq]
  refine ⟨?_, hstate, hlater⟩
  intro e
  rw [hstate]
  rcases RIGHT_CPU_first_shape w p h0 with
    ⟨-, -, -, -, et⟩ | ⟨-, s, -, -, -, -, -, et⟩ | ⟨-, d, -, -, -, -, et⟩
  all_goals
    rw [et, List.count_append]
    apply Nat.add_le_add_left
    cases e with
    | cpuid op =>
      by_cases hop : op = 1
      · subst hop; decide
      · simp [List.count_cons, hop, Ne.symm hop]
    | sse_works => decide
    | xorps => decide
    | check_alignment => decide

/-- Witness for C10: first call on a machine with working SSE, then two more calls
with other answers: the state after the three calls is the state after the
first. -/
theorem RIGHT_CPU_compute_once_witness :
    (RIGHT_CPU_calls
        [{ edx := fun _ => 2 ^ 25, catchable := true, faults := false,
           resethand := false, blockself := true, savemask := false,
           sig_flags := 268435456, sig_mask := 16, aligned := true },
         { edx := fun _ => 0, catchable := false, faults := true,
           resethand := true, blockself := false, savemask := false,
           sig_flags := 3221225472, sig_mask := 0, aligned := false },
         { edx := fun _ => 2 ^ 25, catchable := true, faults := true,
           resethand := false, blockself := true, savemask := false,
           sig_flags := 268435456, sig_mask := 16, aligned := false }]
        (Proc.start sighandler_t.SIG_DFL)).2
      = (RIGHT_CPU
          { edx := fun _ => 2 ^ 25, catchable := true, faults := false,
            resethand := false, blockself := true, savemask := false,
            sig_flags := 268435456, sig_mask := 16, aligned := true }
          (Proc.start sighandler_t.SIG_DFL)).2 :=
  (RIGHT_CPU_compute_once
    { edx := fun _ => 2 ^ 25, catchable := true, faults := false,
      resethand := false, blockself := true, savemask := false,
      sig_flags := 268435456, sig_mask := 16, aligned := true }
    [{ edx := fun _ => 0, catchable := false, faults := true,
       resethand := true, blockself := false, savemask := false,
       sig_flags := 3221225472, sig_mask := 0, aligned := false },
     { edx := fun _ => 2 ^ 25, catchable := true, faults := true,
       resethand := false, blockself := true, savemask := false,
       sig_flags := 268435456, sig_mask := 16, aligned := false }]
    (Proc.start sighandler_t.SIG_DFL) rfl).2.1

/-! ## The marshalling loops -/

/-- Writing `val i` into cell `idx i` for `i = 0, ..., k - 1`, where `idx` maps
distinct iterations to distinct cells of the block: the block keeps its
length and cell `idx i` ends up holding `val i`. -/
theorem foldl_set_spec {α : Type} (N : Nat) (idx : Nat → Nat) (val : Nat → α)
    (hlt : ∀ i, i < N → idx i < N)
    (hinj : ∀ i j, i < N → j < N → idx i = idx j → i = j) (a0 : List α)
    (ha0 : a0.length = N) (k : Nat) (hk : k ≤ N) :
    ((List.range k).foldl (fun a i => a.set (idx i) (val i)) a0).length = N ∧
    ∀ i, i < k →
      ((List.range k).foldl (fun a i => a.set (idx i) (val i)) a0)[idx i]? = some (val i) := by
  induction k with
  | zero => exact ⟨by simpa using ha0, fun i hi => absurd hi (Nat.not_lt_zero i)⟩
  | succ k ih =>
    obtain ⟨hl, hc⟩ := ih (Nat.le_of_succ_le hk)
    rw [List.range_succ, List.foldl_append]
    simp only [List.foldl_cons, List.foldl_nil, List.length_set]
    refine ⟨hl, ?_⟩
    intro i hi
    by_cases hik : i = k
    · subst hik
      rw [List.getElem?_set_self]
      rw [hl]
      exact hlt i hk
    · have hi2 : i < k := by omega
      have hne : idx k ≠ idx i := by
        intro h
        exact hik (hinj i k (by omega) (by omega) h.symm)
      rw [List.getElem?_set_ne hne]
      exact hc i hi2

/-- A `for` loop whose body, at iteration `i`, stores `val i` into cell `idx i`
of the block runs to completion and computes the corresponding pure fold. -/
theorem for_i_store {α : Type} (N : Nat) (idx : Nat → Nat) (val : Nat → α)
    (body : Int → List α → Except Fault (List α))
    (hbody : ∀ (i : Nat) (a : List α), i < N → a.length = N →
      body (i : Int) a = Except.ok (a.set (idx i) (val i)))
    (a0 : List α) (ha0 : a0.length = N) :
    for_i (N : Int) body a0 =
      Except.ok ((List.range N).foldl (fun a i => a.set (idx i) (val i)) a0) := by
  unfold for_i
  rw [Int.toNat_ofNat]
  have key : ∀ k, k ≤ N →
      (List.range k).foldlM (fun st (i : Nat) => body (i : Int) st) a0 =
        Except.ok ((List.range k).foldl (fun a i => a.set (idx i) (val i)) a0) ∧
      ((List.range k).foldl (fun a i => a.set (idx i) (val i)) a0).length = N := by
    intro k
    induction k with
    | zero => intro _; exact ⟨rfl, by simpa using ha0⟩
    | succ k ih =>
      intro hk
      obtain ⟨he, hl⟩ := ih (Nat.le_of_succ_le hk)
      rw [List.range_succ, List.foldlM_append, List.foldl_append, he]
      simp only [List.foldl_cons, List.foldl_nil, List.length_set]
      refine ⟨?_, hl⟩
      show (List.foldlM (fun st (i : Nat) => body (i : Int) st) _ [k]) = _
      rw [List.foldlM_cons, hbody k _ (by omega) hl]
      rfl
  exact (key N (Nat.le_refl N)).1

/-- An in-bounds read succeeds. -/
theorem load_natCast {α : Type} (a : List α) (i : Nat) (x : α) (h : a[i]? = some x) :
    load a (i : Int) = Except.ok x := by
  unfold load
  simp [h]

/-- An in-bounds write succeeds. -/
theorem store_natCast {α : Type} (a : List α) (i : Nat) (x : α) (h : i < a.length) :
    store a (i : Int) x = Except.ok (a.set i x) := by
  unfold store
  simp [h]

/-- A fresh block has the requested number of cells. -/
theorem MALLOC_natCast {α : Type} (junk : Nat → α) (N : Nat) :
    MALLOC junk (N : Int) = Except.ok ((List.range N).map junk) ∧
      ((List.range N).map junk).length = N := by
  unfold MALLOC
  simp

/-- On a finite rank equal to the length of `n`, `reverse_n` returns the reversed
list, whatever the fresh block contained. -/
theorem reverse_n_eq (FINITE_RNK : Int → Bool) (junk : Nat → Int) (n : List Int)
    (hfin : FINITE_RNK (n.length : Int) = true) :
    reverse_n FINITE_RNK junk (n.length : Int) n = Except.ok n.reverse := by
  obtain ⟨hm, hml⟩ := MALLOC_natCast junk n.length
  have hbody : ∀ (i : Nat) (a : List Int), i < n.length → a.length = n.length →
      (fun (i : Int) (nrev : List Int) => do
          let x ← load n i
          store nrev ((n.length : Int) - i - 1) x) (i : Int) a
        = Except.ok (a.set (n.length - 1 - i) (n.getD i 0)) := by
    intro i a hi ha
    have hx : n[i]? = some (n.getD i 0) := by
      rw [List.getD_eq_getElem?_getD, List.getElem?_eq_getElem hi]; rfl
    have hidx : (n.length : Int) - (i : Int) - 1 = ((n.length - 1 - i : Nat) : Int) := by omega
    show (load n (i : Int) >>= fun x => store a ((n.length : Int) - i - 1) x) = _
    rw [load_natCast n i _ hx, hidx]
    show store a _ _ = _
    rw [store_natCast a _ _ (by omega)]
  have hrun := for_i_store n.length (fun i => n.length - 1 - i) (fun i => n.getD i 0)
    (fun (i : Int) (nrev : List Int) => do
      let x ← load n i
      store nrev ((n.length : Int) - i - 1) x) hbody _ hml
  obtain ⟨hl, hc⟩ := foldl_set_spec n.length (fun i => n.length - 1 - i) (fun i => n.getD i 0)
    (fun i hi => by show n.length - 1 - i < n.length; omega)
    (fun i j hi hj h => by
      have h1 : n.length - 1 - i = n.length - 1 - j := h
      omega) _ hml n.length (Nat.le_refl _)
  have hrev : (List.range n.length).foldl
      (fun a i => a.set (n.length - 1 - i) (n.getD i 0)) ((List.range n.length).map junk)
        = n.reverse := by
    apply List.ext_getElem?
    intro j
    by_cases hj : j < n.length
    · have h1 := hc (n.length - 1 - j) (by omega)
      have h2 : n.length - 1 - (n.length - 1 - j) = j := by omega
      simp only [h2] at h1
      rw [h1, List.getElem?_reverse hj, List.getD_eq_getElem?_getD,
        List.getElem?_eq_getElem (show n.length - 1 - j < n.length by omega)]
      rfl
    · rw [List.getElem?_eq_none (by omega), List.getElem?_eq_none (by simp; omega)]
  unfold reverse_n
  simp only [hfin, hm]
  rw [← hrev, ← hrun]
  rfl

/-- C6 (end-to-end reversal).  For every finite rank `rnk >= 0` and every array
`n` of length `rnk`, `reverse_n` returns an array of length `rnk` whose
element at position `rnk - 1 - i` is `n[i]`, for every `0 <= i < rnk`; the
extents `[2, 3, 4]` give `[4, 3, 2]`. -/
theorem reverse_n_reverses (FINITE_RNK : Int → Bool) (junk : Nat → Int) (rnk : Int)
    (n : List Int) (hfin : FINITE_RNK rnk = true) (h0 : 0 ≤ rnk)
    (hlen : (n.length : Int) = rnk) :
    ∃ nrev, reverse_n FINITE_RNK junk rnk n = Except.ok nrev ∧
      (nrev.length : Int) = rnk ∧
      (∀ i : Int, 0 ≤ i → i < rnk →
        ∃ x, load n i = Except.ok x ∧ load nrev (rnk - 1 - i) = Except.ok x) ∧
      (n = [2, 3, 4] → nrev = [4, 3, 2]) := by
  subst hlen
  refine ⟨n.reverse, reverse_n_eq FINITE_RNK junk n hfin, by simp, ?_, ?_⟩
  · intro i hi0 hi
    obtain ⟨k, rfl⟩ := Int.eq_ofNat_of_zero_le hi0
    have hk : k < n.length := by omega
    refine ⟨n[k], load_natCast n k _ (List.getElem?_eq_getElem hk), ?_⟩
    have hidx : (n.length : Int) - 1 - (k : Int) = ((n.length - 1 - k : Nat) : Int) := by omega
    rw [hidx]
    apply load_natCast
    rw [List.getElem?_reverse (by omega)]
    have h2 : n.length - 1 - (n.length - 1 - k) = k := by omega
    rw [h2]
    exact List.getElem?_eq_getElem hk
  · intro hn
    subst hn
    rfl

/-- Witness for C6: the extents `[2, 3, 4]`, with `INT_MAX` as the one non-finite rank. -/
theorem reverse_n_reverses_witness :
    ∃ nrev, reverse_n (fun r => r != 2147483647) (fun _ => 99) 3 [2, 3, 4] = Except.ok nrev ∧
      (nrev.length : Int) = 3 ∧
      (∀ i : Int, 0 ≤ i → i < 3 →
        ∃ x, load [2, 3, 4] i = Except.ok x ∧ load nrev (3 - 1 - i) = Except.ok x) ∧
      (([2, 3, 4] : List Int) = [2, 3, 4] → nrev = [4, 3, 2]) :=
  reverse_n_reverses (fun r => r != 2147483647) (fun _ => 99) 3 [2, 3, 4]
    (by decide) (by decide) (by decide)

/-- C7 (round trip).  For every finite rank `rnk >= 0` and every array `n` of
length `rnk`, `reverse_n(rnk, reverse_n(rnk, n))` is `n`, element for
element, whatever the two fresh blocks contained. -/
theorem reverse_n_round_trip (FINITE_RNK : Int → Bool) (junk1 junk2 : Nat → Int) (rnk : Int)
    (n : List Int) (hfin : FINITE_RNK rnk = true) (h0 : 0 ≤ rnk)
    (hlen : (n.length : Int) = rnk) :
    ∃ nrev, reverse_n FINITE_RNK junk1 rnk n = Except.ok nrev ∧
      reverse_n FINITE_RNK junk2 rnk nrev = Except.ok n := by
  subst hlen
  refine ⟨n.reverse, reverse_n_eq FINITE_RNK junk1 n hfin, ?_⟩
  have h := reverse_n_eq FINITE_RNK junk2 n.reverse (by simpa using hfin)
  simpa using h

/-- Witness for C7: the extents `[2, 3, 4]` reversed twice. -/
theorem reverse_n_round_trip_witness :
    ∃ nrev, reverse_n (fun r => r != 2147483647) (fun _ => 99) 3 [2, 3, 4] = Except.ok nrev ∧
      reverse_n (fun r => r != 2147483647) (fun _ => 77) 3 nrev = Except.ok [2, 3, 4] :=
  reverse_n_round_trip (fun r => r != 2147483647) (fun _ => 99) (fun _ => 77) 3 [2, 3, 4]
    (by decide) (by decide) (by decide)

/-- On a finite rank equal to the common length of the three arrays, `make_dims`
returns the records in the order of the input: record `i` is
`(n[i], is[i], os[i])`. -/
theorem make_dims_eq (FINITE_RNK : Int → Bool) (junk : Nat → iodim) (n is os : List Int)
    (hfin : FINITE_RNK (n.length : Int) = true)
    (his : is.length = n.length) (hos : os.length = n.length) :
    ∃ dims, make_dims FINITE_RNK junk (n.length : Int) n is os = Except.ok dims ∧
      dims.length = n.length ∧
      ∀ i, i < n.length →
        dims[i]? = some ⟨n.getD i 0, is.getD i 0, os.getD i 0⟩ := by
  obtain ⟨hm, hml⟩ := MALLOC_natCast junk n.length
  have hbody : ∀ (i : Nat) (a : List iodim), i < n.length → a.length = n.length →
      (fun (i : Int) (dims : List iodim) => do
          let x ← load n i
          let d ← load dims i
          let dims ← store dims i { d with n := x }
          let y ← load is i
          let d ← load dims i
          let dims ← store dims i { d with is := y }
          let z ← load os i
          let d ← load dims i
          store dims i { d with os := z }) (i : Int) a
        = Except.ok (a.set i ⟨n.getD i 0, is.getD i 0, os.getD i 0⟩) := by
    intro i a hi ha
    have hx : n[i]? = some (n.getD i 0) := by
      rw [List.getD_eq_getElem?_getD, List.getElem?_eq_getElem hi]; rfl
    have hy : is[i]? = some (is.getD i 0) := by
      rw [List.getD_eq_getElem?_getD, List.getElem?_eq_getElem (by omega)]; rfl
    have hz : os[i]? = some (os.getD i 0) := by
      rw [List.getD_eq_getElem?_getD, List.getElem?_eq_getElem (by omega)]; rfl
    have hia : i < a.length := by omega
    have hd : a[i]? = some a[i] := List.getElem?_eq_getElem hia
    simp only [load_natCast n i _ hx, load_natCast is i _ hy, load_natCast os i _ hz,
      load_natCast a i _ hd]
    show (store a (i : Int) _ >>= _) = _
    rw [store_natCast a i _ hia]
    show (load (a.set i _) (i : Int) >>= _) = _
    rw [load_natCast (a.set i _) i _ (List.getElem?_set_self hia)]
    show (store (a.set i _) (i : Int) _ >>= _) = _
    rw [store_natCast _ i _ (by simpa using hia), List.set_set]
    show (load (a.set i _) (i : Int) >>= _) = _
    rw [load_natCast (a.set i _) i _ (List.getElem?_set_self hia)]
    show store (a.set i _) (i : Int) _ = _
    rw [store_natCast _ i _ (by simpa using hia), List.set_set]
  have hrun := for_i_store n.length (fun i => i)
    (fun i => (⟨n.getD i 0, is.getD i 0, os.getD i 0⟩ : iodim))
    (fun (i : Int) (dims : List iodim) => do
          let x ← load n i
          let d ← load dims i
          let dims ← store dims i { d with n := x }
          let y ← load is i
          let d ← load dims i
          let dims ← store dims i { d with is := y }
          let z ← load os i
          let d ← load dims i
          store dims i { d with os := z }) hbody _ hml
  obtain ⟨hl, hc⟩ := foldl_set_spec n.length (fun i => i)
    (fun i => (⟨n.getD i 0, is.getD i 0, os.getD i 0⟩ : iodim))
    (fun i hi => hi) (fun i j _ _ h => h) _ hml n.length (Nat.le_refl _)
  refine ⟨_, ?_, hl, hc⟩
  unfold make_dims
  simp only [hfin, hm]
  rw [← hrun]
  rfl

/-- C8, as stated, fails: for the extents `[2, 3, 4]` with input strides `[5, 6, 7]`
and output strides `[8, 9, 10]`, `make_dims` returns the records in input
order, so record `3 - 1 - 0` is `(4, 7, 10)` and not `(n[0], is[0], os[0])`
`= (2, 5, 8)`. -/
theorem make_dims_reversal_counterexample :
    make_dims (fun r => r != 2147483647) (fun _ => ⟨0, 0, 0⟩) 3 [2, 3, 4] [5, 6, 7] [8, 9, 10]
      = Except.ok [⟨2, 5, 8⟩, ⟨3, 6, 9⟩, ⟨4, 7, 10⟩] ∧
    load ([⟨2, 5, 8⟩, ⟨3, 6, 9⟩, ⟨4, 7, 10⟩] : List iodim) (3 - 1 - 0)
      = Except.ok ⟨4, 7, 10⟩ ∧
    load ([2, 3, 4] : List Int) 0 = Except.ok 2 ∧
    (⟨4, 7, 10⟩ : iodim) ≠ ⟨2, 5, 8⟩ :=
  ⟨rfl, rfl, rfl, by decide⟩

/-- C8, amended.  The adapter `make_dims` copies position for position and does
not reverse: for every finite rank `rnk >= 0` and arrays `n`, `is`, `os` of
length `rnk`, it returns `rnk` records, and record `i` has `n = n[i]`,
`is = is[i]`, `os = os[i]` for every `0 <= i < rnk`. -/
theorem make_dims_in_order (FINITE_RNK : Int → Bool) (junk : Nat → iodim) (rnk : Int)
    (n is os : List Int) (hfin : FINITE_RNK rnk = true) (h0 : 0 ≤ rnk)
    (hn : (n.length : Int) = rnk) (his : (is.length : Int) = rnk)
    (hos : (os.length : Int) = rnk) :
    ∃ dims, make_dims FINITE_RNK junk rnk n is os = Except.ok dims ∧
      (dims.length : Int) = rnk ∧
      ∀ i : Int, 0 ≤ i → i < rnk →
        ∃ x y z, load n i = Except.ok x ∧ load is i = Except.ok y ∧
          load os i = Except.ok z ∧ load dims i = Except.ok ⟨x, y, z⟩ := by
  subst hn
  have his2 : is.length = n.length := by omega
  have hos2 : os.length = n.length := by omega
  obtain ⟨dims, hd, hl, hc⟩ := make_dims_eq FINITE_RNK junk n is os hfin his2 hos2
  refine ⟨dims, hd, by rw [hl], ?_⟩
  intro i hi0 hi
  obtain ⟨k, rfl⟩ := Int.eq_ofNat_of_zero_le hi0
  have hk : k < n.length := by omega
  refine ⟨n.getD k 0, is.getD k 0, os.getD k 0, ?_, ?_, ?_, load_natCast dims k _ (hc k hk)⟩
  · apply load_natCast
    rw [List.getD_eq_getElem?_getD, List.getElem?_eq_getElem hk]; rfl
  · apply load_natCast
    rw [List.getD_eq_getElem?_getD, List.getElem?_eq_getElem (by omega)]; rfl
  · apply load_natCast
    rw [List.getD_eq_getElem?_getD, List.getElem?_eq_getElem (by omega)]; rfl

/-- Witness for C8 amended: extents `[2, 3, 4]`, strides `[5, 6, 7]` and `[8, 9, 10]`. -/
theorem make_dims_in_order_witness :
    ∃ dims, make_dims (fun r => r != 2147483647) (fun _ => ⟨0, 0, 0⟩) 3
        [2, 3, 4] [5, 6, 7] [8, 9, 10] = Except.ok dims ∧
      (dims.length : Int) = 3 ∧
      ∀ i : Int, 0 ≤ i → i < 3 →
        ∃ x y z, load [2, 3, 4] i = Except.ok x ∧ load [5, 6, 7] i = Except.ok y ∧
          load [8, 9, 10] i = Except.ok z ∧ load dims i = Except.ok ⟨x, y, z⟩ :=
  make_dims_in_order (fun r => r != 2147483647) (fun _ => ⟨0, 0, 0⟩) 3
    [2, 3, 4] [5, 6, 7] [8, 9, 10] (by decide) (by decide) (by decide) (by decide) (by decide)

/-- On a finite non-zero rank equal to the length of `ik`, `ints2kinds` returns the
converted codes in reverse order. -/
theorem ints2kinds_eq {K : Type} (FINITE_RNK : Int → Bool) (r2r_kind : Int → K)
    (junk : Nat → K) (ik : List Int) (hfin : FINITE_RNK (ik.length : Int) = true)
    (hpos : 0 < ik.length) :
    ints2kinds FINITE_RNK r2r_kind junk (ik.length : Int) ik
      = Except.ok (some (ik.reverse.map r2r_kind)) := by
  obtain ⟨hm, hml⟩ := MALLOC_natCast junk ik.length
  have hbody : ∀ (i : Nat) (a : List K), i < ik.length → a.length = ik.length →
      (fun (i : Int) (k : List K) => do
          let x ← load ik ((ik.length : Int) - 1 - i)
          store k i (r2r_kind x)) (i : Int) a
        = Except.ok (a.set i (r2r_kind (ik.getD (ik.length - 1 - i) 0))) := by
    intro i a hi ha
    have hx : ik[ik.length - 1 - i]? = some (ik.getD (ik.length - 1 - i) 0) := by
      rw [List.getD_eq_getElem?_getD, List.getElem?_eq_getElem (by omega)]; rfl
    have hidx : (ik.length : Int) - 1 - (i : Int) = ((ik.length - 1 - i : Nat) : Int) := by
      omega
    show (load ik ((ik.length : Int) - 1 - i) >>= fun x => store a (i : Int) (r2r_kind x)) = _
    rw [hidx, load_natCast ik _ _ hx]
    show store a _ _ = _
    rw [store_natCast a _ _ (by omega)]
  have hrun := for_i_store ik.length (fun i => i)
    (fun i => r2r_kind (ik.getD (ik.length - 1 - i) 0))
    (fun (i : Int) (k : List K) => do
          let x ← load ik ((ik.length : Int) - 1 - i)
          store k i (r2r_kind x)) hbody _ hml
  obtain ⟨hl, hc⟩ := foldl_set_spec ik.length (fun i => i)
    (fun i => r2r_kind (ik.getD (ik.length - 1 - i) 0))
    (fun i hi => hi) (fun i j _ _ h => h) _ hml ik.length (Nat.le_refl _)
  have hrev : (List.range ik.length).foldl
      (fun a i => a.set i (r2r_kind (ik.getD (ik.length - 1 - i) 0)))
      ((List.range ik.length).map junk) = ik.reverse.map r2r_kind := by
    apply List.ext_getElem?
    intro j
    by_cases hj : j < ik.length
    · rw [hc j hj, List.getElem?_map, List.getElem?_reverse hj, List.getD_eq_getElem?_getD,
        List.getElem?_eq_getElem (show ik.length - 1 - j < ik.length by omega)]
      rfl
    · rw [List.getElem?_eq_none (by omega), List.getElem?_eq_none (by simp; omega)]
  have hne : ¬ ((ik.length : Int) = 0) := by omega
  unfold ints2kinds
  simp only [hfin, hne, hm]
  rw [← hrev]
  show (for_i _ _ _ >>= _) = _
  rw [hrun]
  rfl

/-- C9 (enumeration mapping).  For every finite rank `rnk > 0` and every array
`ik` of integer codes of length `rnk`, `ints2kinds` returns an array of
length `rnk` whose element at position `i` is the enumeration value with
code `ik[rnk - 1 - i]`, for every `0 <= i < rnk`; the input `[0, 1, 2]` gives
the values for 2, 1, 0 in this order.  For `rnk = 0` or a non-finite rank the
null pointer is returned. -/
theorem ints2kinds_maps_and_reverses {K : Type} (FINITE_RNK : Int → Bool)
    (r2r_kind : Int → K) (junk : Nat → K) (rnk : Int) (ik : List Int) :
    (FINITE_RNK rnk = true → 0 < rnk → (ik.length : Int) = rnk →
      ∃ k, ints2kinds FINITE_RNK r2r_kind junk rnk ik = Except.ok (some k) ∧
        (k.length : Int) = rnk ∧
        (∀ i : Int, 0 ≤ i → i < rnk →
          ∃ x, load ik (rnk - 1 - i) = Except.ok x ∧ load k i = Except.ok (r2r_kind x)) ∧
        (ik = [0, 1, 2] → k = [r2r_kind 2, r2r_kind 1, r2r_kind 0])) ∧
    (FINITE_RNK rnk = false ∨ rnk = 0 →
      ints2kinds FINITE_RNK r2r_kind junk rnk ik = Except.ok none) := by
  constructor
  · intro hfin hpos hlen
    subst hlen
    have hpos2 : 0 < ik.length := by omega
    refine ⟨ik.reverse.map r2r_kind, ints2kinds_eq FINITE_RNK r2r_kind junk ik hfin hpos2,
      by simp, ?_, ?_⟩
    · intro i hi0 hi
      obtain ⟨j, rfl⟩ := Int.eq_ofNat_of_zero_le hi0
      have hj : j < ik.length := by omega
      have hidx : (ik.length : Int) - 1 - (j : Int) = ((ik.length - 1 - j : Nat) : Int) := by
        omega
      have hlt : ik.length - 1 - j < ik.length := by omega
      refine ⟨ik[ik.length - 1 - j], ?_, ?_⟩
      · rw [hidx]
        exact load_natCast ik _ _ (List.getElem?_eq_getElem hlt)
      · apply load_natCast
        rw [List.getElem?_map, List.getElem?_reverse hj, List.getElem?_eq_getElem hlt]
        rfl
    · intro hik
      subst hik
      rfl
  · intro h
    unfold ints2kinds
    simp only [h]
    rfl

/-- Witness for C9: the codes `[0, 1, 2]`, with the enumeration read as its integer
codes. -/
theorem ints2kinds_maps_and_reverses_witness :
    ints2kinds (fun r => r != 2147483647) (fun c => c) (fun _ => 99) 3 [0, 1, 2]
        = Except.ok (some [2, 1, 0]) ∧
    ints2kinds (fun r => r != 2147483647) (fun c => c) (fun _ => 99) 0 []
        = Except.ok none := by
  have h := ints2kinds_maps_and_reverses (fun r => r != 2147483647) (fun c => c)
    (fun _ => 99) 3 [0, 1, 2]
  have h0 := ints2kinds_maps_and_reverses (fun r => r != 2147483647) (fun c => c)
    (fun _ => 99) 0 []
  obtain ⟨k, hk, -, -, he⟩ := h.1 (by decide) (by decide) (by decide)
  rw [he rfl] at hk
  exact ⟨hk, h0.2 (Or.inr rfl)⟩

end Fftw3
